import Mathlib

/-!
Verification of the PostgreSQL proxy startup layer of this repository.

Bytes are modelled as `Nat` (values < 256 on the wire), byte buffers as
`List Nat`.  The definitions below are shallow embeddings of the Rust
functions in `postgres-protocol/src/message/{startup,shared}.rs` and
`tokio-postgres/src/proxy/{mod,startup,auth}.rs`; each definition carries a
comment naming the function it embeds.
-/

/-- Big-endian interpretation of a byte list (each entry reduced mod 256),
as done by `byteorder::BigEndian::read_u32` over the first bytes. -/
def be32 (l : List Nat) : Nat :=
  l.foldl (fun acc b => acc * 256 + b % 256) 0

/-- Big-endian 4-byte encoding of a 32-bit value, as written by
`BufMut::put_u32`. -/
def u32be (n : Nat) : List Nat :=
  [n / 2 ^ 24 % 256, n / 2 ^ 16 % 256, n / 2 ^ 8 % 256, n % 256]

/-- Reinterpret a `u32` value as an `i32` (two's complement), as done by
`byteorder`'s `read_i32`. -/
def toI32 (n : Nat) : Int :=
  if n % 2 ^ 32 < 2 ^ 31 then (n % 2 ^ 32 : Nat) else (n % 2 ^ 32 : Nat) - 2 ^ 32

/-- The `std::io::ErrorKind` values produced by the startup decoder. -/
inductive IoErrorKind where
  | invalidInput
  | invalidData
  | unexpectedEof
deriving DecidableEq

/-- `StartupRequest` from `postgres-protocol/src/message/startup.rs`. -/
inductive StartupRequest where
  | startup (payload : List Nat)
  | cancel (process_id : Int) (secret_key : Int)
  | sslRequest
  | gssEncRequest
  | password (payload : List Nat)
deriving DecidableEq

/-- Outcome of one decode step on a `BytesMut` input buffer.  `rest` is what
remains of the caller's buffer after the call (the Rust functions take
`&mut BytesMut` and `split_to` consumes from it, also on error paths).
`panicked` marks the one reachable Rust panic (an out-of-range slice index
in `Buffer::slice`). -/
inductive ParseResult where
  | needMore
  | ok (msg : StartupRequest) (rest : List Nat)
  | err (kind : IoErrorKind) (msg : String) (rest : List Nat)
  | panicked
deriving DecidableEq

/-- The bytes left in the caller's buffer, when the call returned. -/
def ParseResult.rest : ParseResult → Option (List Nat)
  | .needMore => none
  | .ok _ r => some r
  | .err _ _ r => some r
  | .panicked => none

/-- `Buffer` from `postgres-protocol/src/message/shared.rs`: a cursor over an
immutable byte buffer. -/
structure Buffer where
  bytes : List Nat
  idx : Nat
deriving DecidableEq

/-- `Buffer::slice`: the bytes from the cursor to the end. -/
def Buffer.slice (b : Buffer) : List Nat :=
  b.bytes.drop b.idx

/-- `Buffer::is_empty`. -/
def Buffer.isEmpty (b : Buffer) : Bool :=
  b.slice.isEmpty

/-- `Buffer::read_cstr`: scan for the next 0 byte; return the bytes strictly
before it and advance past the terminator; `none` models the
`UnexpectedEof` error when no 0 byte exists. -/
def Buffer.read_cstr (b : Buffer) : Option (List Nat × Buffer) :=
  match b.slice.findIdx? (fun x => x = 0) with
  | some pos => some (b.slice.take pos, ⟨b.bytes, b.idx + pos + 1⟩)
  | none => none

/-- `Buffer::read_all`: the remaining slice, cursor moved to the end. -/
def Buffer.read_all (b : Buffer) : List Nat × Buffer :=
  (b.slice, ⟨b.bytes, b.bytes.length⟩)

/-- `ReadBytesExt::read_u32::<BigEndian>` through `Buffer`'s `Read` impl:
`read_exact` of 4 bytes; `none` models the `UnexpectedEof` error when
fewer than 4 bytes remain. -/
def Buffer.read_u32 (b : Buffer) : Option (Nat × Buffer) :=
  if 4 ≤ b.slice.length then some (be32 (b.slice.take 4), ⟨b.bytes, b.idx + 4⟩)
  else none

/-- `ReadBytesExt::read_i32::<BigEndian>` through `Buffer`'s `Read` impl. -/
def Buffer.read_i32 (b : Buffer) : Option (Int × Buffer) :=
  if 4 ≤ b.slice.length then some (toI32 (be32 (b.slice.take 4)), ⟨b.bytes, b.idx + 4⟩)
  else none

/-- The dispatch on the startup `code` in `StartupRequest::parse_without_tag`
(the `match code` expression, returning either an early error or the decoded
message together with the buffer state used by the final emptiness check). -/
def dispatch_untagged (code : Nat) (b : Buffer) :
    Except (IoErrorKind × String) (StartupRequest × Buffer) :=
  if code = 196608 then
    let (data, b2) := b.read_all
    .ok (.startup data, b2)
  else if code = 80877102 then
    match b.read_i32 with
    | none => .error (.unexpectedEof, "failed to fill whole buffer")
    | some (process_id, b2) =>
      match b2.read_i32 with
      | none => .error (.unexpectedEof, "failed to fill whole buffer")
      | some (secret_key, b3) => .ok (.cancel process_id secret_key, b3)
  else if code = 80877103 then .ok (.sslRequest, b)
  else if code = 80877104 then .ok (.gssEncRequest, b)
  else .error (.invalidInput, "unknown startup message code `" ++ toString code ++ "`")

/-- `StartupRequest::parse_without_tag` from
`postgres-protocol/src/message/startup.rs`. -/
def parse_without_tag (buf : List Nat) : ParseResult :=
  if buf.length < 4 then .needMore
  else
    let len := be32 (buf.take 4)
    if len < 4 then .err .invalidInput "invalid message length: parsing u32" buf
    else if 10000 < len then .err .invalidInput "invalid message length: parsing u32" buf
    else if buf.length < len then .needMore
    else
      let rest := buf.drop len
      let b0 : Buffer := ⟨buf.take len, 4⟩
      match b0.read_u32 with
      | none => .err .unexpectedEof "failed to fill whole buffer" rest
      | some (code, b1) =>
        match dispatch_untagged code b1 with
        | .error (k, m) => .err k m rest
        | .ok (message, bEnd) =>
          if bEnd.isEmpty then .ok message rest
          else .err .invalidInput "invalid message length: expected buffer to be empty" rest

/-- `StartupRequest::parse_with_tag` from
`postgres-protocol/src/message/startup.rs`.  Note that the source checks
`buf.len() < len` (not `len + 1`) and then `split_to(len)`, so the tag byte
is counted inside `len`; the body seen by the `Buffer` (cursor 5) is
`bytes[5..len]`.  When `len = 4` the cursor exceeds the frame and the first
`slice` call in `read_cstr` panics in Rust (out-of-range index). -/
def parse_with_tag (buf : List Nat) : ParseResult :=
  if buf.length < 5 then .needMore
  else
    let len := be32 ((buf.drop 1).take 4)
    if len < 4 then .err .invalidInput "invalid message length: parsing u32" buf
    else if 10000 < len then .err .invalidInput "invalid message length: parsing u32" buf
    else if buf.length < len then .needMore
    else
      let tag := buf.getD 0 0
      let rest := buf.drop len
      let frame := buf.take len
      if tag = 112 then
        if frame.length < 5 then .panicked
        else
          let b0 : Buffer := ⟨frame, 5⟩
          match b0.read_cstr with
          | none => .err .unexpectedEof "unexpected EOF" rest
          | some (passwd, b1) =>
            if b1.isEmpty then .ok (.password passwd) rest
            else .err .invalidInput "invalid message length: expected buffer to be empty" rest
      else
        .err .invalidInput
          ("unknown startup message tag \x27" ++ (Char.ofNat tag).toString ++ "\x27") rest

/-- `Buffer.read_u32` on a frame `buf.take len` with cursor 4 succeeds when
`8 ≤ len ≤ buf.length`, yielding the code at wire offset 4. -/
theorem read_u32_frame (buf : List Nat) (len : Nat) (hl : len ≤ buf.length)
    (h8 : 8 ≤ len) :
    Buffer.read_u32 ⟨buf.take len, 4⟩ =
      some (be32 ((buf.drop 4).take 4), ⟨buf.take len, 8⟩) := by
  have hfl : (buf.take len).length = len := by
    rw [List.length_take]; omega
  have hs : ((buf.take len).drop 4).take 4 = (buf.drop 4).take 4 := by
    rw [List.drop_take, List.take_take]
    congr 1
    omega
  unfold Buffer.read_u32 Buffer.slice
  dsimp only
  rw [if_pos]
  · rw [hs]
  · rw [List.length_drop, hfl]; omega

/-- `Buffer.read_i32` succeeds when at least 4 bytes remain past the cursor. -/
theorem read_i32_some (frame : List Nat) (i : Nat) (h : i + 4 ≤ frame.length) :
    Buffer.read_i32 ⟨frame, i⟩ =
      some (toI32 (be32 ((frame.drop i).take 4)), ⟨frame, i + 4⟩) := by
  unfold Buffer.read_i32 Buffer.slice
  dsimp only
  rw [if_pos]
  rw [List.length_drop]; omega

/-- A buffer whose cursor is strictly inside its bytes is not empty. -/
theorem buffer_not_empty (frame : List Nat) (i : Nat) (h : i < frame.length) :
    Buffer.isEmpty ⟨frame, i⟩ = false := by
  unfold Buffer.isEmpty Buffer.slice
  dsimp only
  rw [Bool.eq_false_iff, ne_eq, List.isEmpty_iff, List.drop_eq_nil_iff]
  omega

/-- C1: the claim states that `parse_with_tag` does not count the tag byte in
`len` (needing `len + 1` buffered bytes, consuming `1 + len`, and accepting a
Password body of `len - 5` characters plus a NUL).  The code instead counts
the tag inside `len`: a standard PasswordMessage for password `abc`
(`len = 8` excluding the tag, body `abc` NUL) is rejected with
`UnexpectedEof` leaving the NUL byte unconsumed, while the frames it accepts
carry `len` equal to the total frame size including the tag (body of
`len - 6` characters plus a NUL), and a buffer of exactly `len` bytes is
already parsed rather than answered with "need more". -/
theorem c1_parse_with_tag_counts_tag_in_len :
    parse_with_tag [112, 0, 0, 0, 8, 97, 98, 99, 0] =
      .err .unexpectedEof "unexpected EOF" [0]
    ∧ parse_with_tag [112, 0, 0, 0, 9, 97, 98, 99, 0] = .ok (.password [97, 98, 99]) []
    ∧ parse_with_tag [112, 0, 0, 0, 6, 0] = .ok (.password []) [] := by
  refine ⟨?_, ?_, ?_⟩ <;> rfl

/-- C7: for un-tagged frames, a length field outside `[4,10000]` is rejected
with `InvalidInput` consuming nothing (in particular nothing beyond the
length prefix); for a valid length with at least `len` buffered bytes the
call consumes exactly `len` bytes whatever the outcome; and an
SSLRequest / GSSEncRequest (fixed body ending at offset 8) or Cancel (fixed
body ending at offset 16) frame whose `len` exceeds its fixed size is
rejected with `InvalidInput` "expected buffer to be empty". -/
theorem c7_untagged_length_and_consumption (buf : List Nat) (len : Nat)
    (hlen : len = be32 (buf.take 4)) :
    (4 ≤ buf.length → (len < 4 ∨ 10000 < len) →
        parse_without_tag buf = .err .invalidInput "invalid message length: parsing u32" buf)
    ∧ (4 ≤ len → len ≤ 10000 → len ≤ buf.length →
        (parse_without_tag buf).rest = some (buf.drop len))
    ∧ (be32 ((buf.drop 4).take 4) = 80877103 → 8 < len → len ≤ 10000 → len ≤ buf.length →
        parse_without_tag buf =
          .err .invalidInput "invalid message length: expected buffer to be empty"
            (buf.drop len))
    ∧ (be32 ((buf.drop 4).take 4) = 80877104 → 8 < len → len ≤ 10000 → len ≤ buf.length →
        parse_without_tag buf =
          .err .invalidInput "invalid message length: expected buffer to be empty"
            (buf.drop len))
    ∧ (be32 ((buf.drop 4).take 4) = 80877102 → 16 < len → len ≤ 10000 → len ≤ buf.length →
        parse_without_tag buf =
          .err .invalidInput "invalid message length: expected buffer to be empty"
            (buf.drop len)) := by
  refine ⟨?_, ?_, ?_, ?_, ?_⟩
  · intro h4 hout
    unfold parse_without_tag
    rw [if_neg (by omega)]
    dsimp only
    rw [← hlen]
    rcases hout with h | h
    · rw [if_pos h]
    · rw [if_neg (by omega), if_pos h]
  · intro hge hle hbuf
    unfold parse_without_tag
    rw [if_neg (by omega)]
    dsimp only
    rw [← hlen, if_neg (by omega), if_neg (by omega), if_neg (by omega)]
    cases hu : Buffer.read_u32 ⟨buf.take len, 4⟩ with
    | none => rfl
    | some p =>
      obtain ⟨code, b1⟩ := p
      dsimp only
      cases hd : dispatch_untagged code b1 with
      | error e =>
        obtain ⟨k, m⟩ := e
        rfl
      | ok r =>
        obtain ⟨message, bEnd⟩ := r
        dsimp only
        by_cases he : bEnd.isEmpty = true
        · rw [if_pos he]; rfl
        · rw [if_neg he]; rfl
  · intro hcode h8 hle hbuf
    unfold parse_without_tag
    rw [if_neg (by omega)]
    dsimp only
    rw [← hlen, if_neg (by omega), if_neg (by omega), if_neg (by omega)]
    rw [read_u32_frame buf len hbuf (by omega), hcode]
    dsimp only
    rw [dispatch_untagged]
    rw [if_neg (by norm_num), if_neg (by norm_num), if_pos rfl]
    dsimp only
    rw [buffer_not_empty _ 8 (by rw [List.length_take]; omega)]
    simp
  · intro hcode h8 hle hbuf
    unfold parse_without_tag
    rw [if_neg (by omega)]
    dsimp only
    rw [← hlen, if_neg (by omega), if_neg (by omega), if_neg (by omega)]
    rw [read_u32_frame buf len hbuf (by omega), hcode]
    dsimp only
    rw [dispatch_untagged]
    rw [if_neg (by norm_num), if_neg (by norm_num), if_neg (by norm_num), if_pos rfl]
    dsimp only
    rw [buffer_not_empty _ 8 (by rw [List.length_take]; omega)]
    simp
  · intro hcode h16 hle hbuf
    unfold parse_without_tag
    rw [if_neg (by omega)]
    dsimp only
    rw [← hlen, if_neg (by omega), if_neg (by omega), if_neg (by omega)]
    rw [read_u32_frame buf len hbuf (by omega), hcode]
    dsimp only
    rw [dispatch_untagged]
    rw [if_neg (by norm_num), if_pos rfl]
    rw [read_i32_some (buf.take len) 8 (by rw [List.length_take]; omega)]
    dsimp only
    rw [read_i32_some (buf.take len) 12 (by rw [List.length_take]; omega)]
    dsimp only
    rw [buffer_not_empty _ 16 (by rw [List.length_take]; omega)]
    simp

/-- Witness for C7 at concrete inputs: an out-of-range length (3), a valid
SSLRequest with a trailing byte left in the buffer, oversized SSLRequest /
GSSEncRequest / Cancel frames. -/
theorem c7_untagged_length_and_consumption_witness :
    parse_without_tag [0, 0, 0, 3] =
      .err .invalidInput "invalid message length: parsing u32" [0, 0, 0, 3]
    ∧ (parse_without_tag [0, 0, 0, 8, 4, 210, 22, 47, 99]).rest =
      some (List.drop 8 [0, 0, 0, 8, 4, 210, 22, 47, 99])
    ∧ parse_without_tag [0, 0, 0, 9, 4, 210, 22, 47, 0] =
      .err .invalidInput "invalid message length: expected buffer to be empty"
        (List.drop 9 [0, 0, 0, 9, 4, 210, 22, 47, 0])
    ∧ parse_without_tag [0, 0, 0, 9, 4, 210, 22, 48, 0] =
      .err .invalidInput "invalid message length: expected buffer to be empty"
        (List.drop 9 [0, 0, 0, 9, 4, 210, 22, 48, 0])
    ∧ parse_without_tag [0, 0, 0, 17, 4, 210, 22, 46, 0, 0, 0, 42, 0, 0, 0, 99, 7] =
      .err .invalidInput "invalid message length: expected buffer to be empty"
        (List.drop 17 [0, 0, 0, 17, 4, 210, 22, 46, 0, 0, 0, 42, 0, 0, 0, 99, 7]) :=
  ⟨(c7_untagged_length_and_consumption [0, 0, 0, 3] 3 (by decide)).1 (by decide)
      (Or.inl (by decide)),
   (c7_untagged_length_and_consumption [0, 0, 0, 8, 4, 210, 22, 47, 99] 8
      (by decide)).2.1 (by decide) (by decide) (by decide),
   (c7_untagged_length_and_consumption [0, 0, 0, 9, 4, 210, 22, 47, 0] 9
      (by decide)).2.2.1 (by decide) (by decide) (by decide) (by decide),
   (c7_untagged_length_and_consumption [0, 0, 0, 9, 4, 210, 22, 48, 0] 9
      (by decide)).2.2.2.1 (by decide) (by decide) (by decide) (by decide),
   (c7_untagged_length_and_consumption [0, 0, 0, 17, 4, 210, 22, 46, 0, 0, 0, 42, 0, 0, 0, 99, 7]
      17 (by decide)).2.2.2.2 (by decide) (by decide) (by decide) (by decide)⟩

/-- `StartupCodec` from `tokio-postgres/src/proxy/startup.rs`.  Modelled from
the spec: the snapshot under src declares a unit struct yet calls
`StartupCodec::new()` and `StartupRequest::parse`, neither of which is
defined there; the spec (§4.2) describes the missing state as one boolean
flag `seen_client_startup`, initially false. -/
structure StartupCodec where
  seen_client_startup : Bool
deriving DecidableEq

/-- Modelled from the spec: `StartupCodec::new()` starts with
`seen_client_startup = false`. -/
def StartupCodec.new : StartupCodec := ⟨false⟩

/-- Modelled from the spec: the dispatch of `StartupRequest::parse` (absent
from src): un-tagged parsing until a Startup has been decoded, which flips
`seen_client_startup`; tagged parsing afterwards. -/
def StartupCodec.decode (c : StartupCodec) (buf : List Nat) : StartupCodec × ParseResult :=
  if c.seen_client_startup then (c, parse_with_tag buf)
  else
    match parse_without_tag buf with
    | .ok (.startup d) rest => (⟨true⟩, .ok (.startup d) rest)
    | r => (c, r)

/-- C2: the codec is a two-state machine over `seen_client_startup`,
initially false: before any Startup it parses un-tagged frames, decoding a
Startup (and nothing else) sets the flag, and with the flag set every decode
is tagged parsing. -/
theorem c2_codec_two_state_machine :
    StartupCodec.new.seen_client_startup = false
    ∧ (∀ buf : List Nat, (StartupCodec.decode ⟨false⟩ buf).2 = parse_without_tag buf)
    ∧ (∀ (buf : List Nat) (d : List Nat) (rest : List Nat),
        parse_without_tag buf = .ok (.startup d) rest →
        (StartupCodec.decode ⟨false⟩ buf).1.seen_client_startup = true)
    ∧ (∀ buf : List Nat,
        (∀ (d : List Nat) (rest : List Nat), parse_without_tag buf ≠ .ok (.startup d) rest) →
        (StartupCodec.decode ⟨false⟩ buf).1.seen_client_startup = false)
    ∧ (∀ buf : List Nat, StartupCodec.decode ⟨true⟩ buf = (⟨true⟩, parse_with_tag buf)) := by
  refine ⟨rfl, ?_, ?_, ?_, fun buf => rfl⟩
  · intro buf
    unfold StartupCodec.decode
    dsimp only
    rw [if_neg (by simp)]
    cases h : parse_without_tag buf with
    | needMore => rfl
    | panicked => rfl
    | err k m r => rfl
    | ok msg rest => cases msg <;> rfl
  · intro buf d rest h
    unfold StartupCodec.decode
    dsimp only
    rw [if_neg (by simp), h]
  · intro buf h
    unfold StartupCodec.decode
    dsimp only
    rw [if_neg (by simp)]
    cases hp : parse_without_tag buf with
    | needMore => rfl
    | panicked => rfl
    | err k m r => rfl
    | ok msg rest =>
      cases msg with
      | startup d => exact absurd hp (h d rest)
      | cancel p s => rfl
      | sslRequest => rfl
      | gssEncRequest => rfl
      | password p => rfl

/-- Witness for C2: a concrete Startup frame (protocol 3.0, one payload
byte) flips the flag; a concrete SSLRequest frame leaves it false. -/
theorem c2_codec_two_state_machine_witness :
    parse_without_tag [0, 0, 0, 9, 0, 3, 0, 0, 0] = .ok (.startup [0]) []
    ∧ (StartupCodec.decode ⟨false⟩ [0, 0, 0, 9, 0, 3, 0, 0, 0]).1.seen_client_startup = true
    ∧ (StartupCodec.decode ⟨false⟩ [0, 0, 0, 8, 4, 210, 22, 47]).1.seen_client_startup = false :=
  ⟨by decide,
   c2_codec_two_state_machine.2.2.1 [0, 0, 0, 9, 0, 3, 0, 0, 0] [0] [] (by decide),
   c2_codec_two_state_machine.2.2.2.1 [0, 0, 0, 8, 4, 210, 22, 47] (by
     intro d rest h
     rw [show parse_without_tag [0, 0, 0, 8, 4, 210, 22, 47] = .ok .sslRequest [] from by decide]
       at h
     simp at h)⟩

/-- `StartupResponse` from `postgres-protocol/src/message/startup.rs`; the
`String`/`Bytes` payloads are modelled as their byte lists. -/
inductive StartupResponse where
  | authenticationOk
  | authenticationMD5Password (salt : List Nat)
  | sslResponse (ok : Bool)
  | gssEncResponse (ok : Bool)
  | errorResponse (err : List Nat)
  | parameterStatus (key : List Nat) (value : List Nat)
  | readyForQuery
deriving DecidableEq

/-- `BufMut::put_u8`: append one byte. -/
def put_u8 (dst : List Nat) (b : Nat) : List Nat := dst ++ [b % 256]

/-- `BufMut::put_u32`: append a big-endian u32 (the argument is truncated
to 32 bits, as by `len as u32`). -/
def put_u32 (dst : List Nat) (n : Nat) : List Nat := dst ++ u32be (n % 2 ^ 32)

/-- `BufMut::put_slice`: append raw bytes. -/
def put_slice (dst : List Nat) (s : List Nat) : List Nat := dst ++ s

/-- `StartupResponse::encode` from
`postgres-protocol/src/message/startup.rs`, written as the same sequence of
`put_*` calls on the output buffer `dst`. -/
def StartupResponse.encode (r : StartupResponse) (dst : List Nat) : List Nat :=
  match r with
  | .authenticationOk =>
    put_u32 (put_u32 (put_u8 dst 82) 8) 0
  | .authenticationMD5Password salt =>
    put_u32 (put_slice (put_u32 (put_u8 dst 82) 12) salt) 0
  | .sslResponse ok =>
    put_u8 dst (if ok then 83 else 78)
  | .gssEncResponse ok =>
    put_u8 dst (if ok then 71 else 78)
  | .errorResponse err =>
    let len := 4 + (1 + 5 + 1) + (1 + err.length + 1) + 1
    put_u8 (put_u8 (put_slice (put_u8 (put_u8 (put_slice (put_u8 (put_u32 (put_u8 dst 69) len)
      83) [70, 65, 84, 65, 76]) 0) 77) err) 0) 0
  | .parameterStatus key value =>
    let len := 4 + (key.length + 1) + (value.length + 1)
    put_u8 (put_slice (put_u8 (put_slice (put_u32 (put_u8 dst 83) len) key) 0) value) 0
  | .readyForQuery =>
    put_u8 (put_u32 (put_u8 dst 90) 5) 73

/-- `StartupInfo` from `tokio-postgres/src/proxy/startup.rs`. -/
inductive StartupInfo where
  | startup (payload : List Nat)
  | cancel (process_id : Int) (secret_key : Int)
deriving DecidableEq

/-- The error classes of `tokio-postgres` `Error` reached by the startup
reader: `Error::io`, `Error::closed`, `Error::unexpected_message`, and
`Error::authentication`. -/
inductive ProxyError where
  | io (kind : IoErrorKind)
  | closed
  | unexpectedMessage
  | authentication
deriving DecidableEq

/-- `read_frontend_startup` from `tokio-postgres/src/proxy/startup.rs`,
over the sequence of decoder results the framed stream yields (list end =
end-of-stream).  Returns the responses sent while looping and the outcome.
The `password` arm is modelled from the spec (§4.3): the match in the src
snapshot omits it (it cannot compile there as shown); the spec says a
Password request fails with `UnexpectedMessage`. -/
def read_frontend_startup :
    List (Except IoErrorKind StartupRequest) →
      List StartupResponse × Except ProxyError StartupInfo
  | [] => ([], .error .closed)
  | .error e :: _ => ([], .error (.io e))
  | .ok (.startup d) :: _ => ([], .ok (.startup d))
  | .ok (.cancel p s) :: _ => ([], .ok (.cancel p s))
  | .ok .sslRequest :: rest =>
    let r := read_frontend_startup rest
    (.sslResponse false :: r.1, r.2)
  | .ok .gssEncRequest :: rest =>
    let r := read_frontend_startup rest
    (.gssEncResponse false :: r.1, r.2)
  | .ok (.password _) :: _ => ([], .error .unexpectedMessage)

/-- C5: the reader returns Startup and Cancel as terminal events; on
SSLRequest it sends `SSLResponse(false)` (the single byte `N` = 78) and
continues; on GSSEncRequest it sends `GSSEncResponse(false)` (`N`) and
continues; a decoded Password fails with `UnexpectedMessage`; end-of-stream
before a terminal event fails with `Closed`. -/
theorem c5_read_frontend_startup_events :
    read_frontend_startup [] = ([], .error .closed)
    ∧ (∀ (d : List Nat) rest, read_frontend_startup (.ok (.startup d) :: rest) =
        ([], .ok (.startup d)))
    ∧ (∀ (p s : Int) rest, read_frontend_startup (.ok (.cancel p s) :: rest) =
        ([], .ok (.cancel p s)))
    ∧ (∀ rest, read_frontend_startup (.ok .sslRequest :: rest) =
        (.sslResponse false :: (read_frontend_startup rest).1,
          (read_frontend_startup rest).2))
    ∧ (∀ rest, read_frontend_startup (.ok .gssEncRequest :: rest) =
        (.gssEncResponse false :: (read_frontend_startup rest).1,
          (read_frontend_startup rest).2))
    ∧ (∀ (h : List Nat) rest, read_frontend_startup (.ok (.password h) :: rest) =
        ([], .error .unexpectedMessage))
    ∧ (∀ e rest, read_frontend_startup (.error e :: rest) = ([], .error (.io e)))
    ∧ StartupResponse.encode (.sslResponse false) [] = [78]
    ∧ StartupResponse.encode (.gssEncResponse false) [] = [78] :=
  ⟨rfl, fun _ _ => rfl, fun _ _ _ => rfl, fun _ => rfl, fun _ => rfl, fun _ _ => rfl,
   fun _ _ => rfl, rfl, rfl⟩

/-- C9: each `StartupResponse` variant encodes to exactly the §6 wire bytes:
`R u32(8) u32(0)`; `R u32(12) salt u32(0)` (the quirky trailing zero word);
single bytes `S`/`N` and `G`/`N`; `E u32(len) S "FATAL" 0 M text 0 0`;
`S u32(len) key 0 value 0`; `Z u32(5) I`. -/
theorem c9_encode_wire_forms :
    StartupResponse.encode .authenticationOk [] = [82] ++ u32be 8 ++ u32be 0
    ∧ (∀ salt : List Nat, salt.length = 4 →
        StartupResponse.encode (.authenticationMD5Password salt) [] =
          [82] ++ u32be 12 ++ salt ++ u32be 0)
    ∧ StartupResponse.encode (.sslResponse true) [] = [83]
    ∧ StartupResponse.encode (.sslResponse false) [] = [78]
    ∧ StartupResponse.encode (.gssEncResponse true) [] = [71]
    ∧ StartupResponse.encode (.gssEncResponse false) [] = [78]
    ∧ (∀ t : List Nat, t.length + 14 < 2 ^ 32 →
        StartupResponse.encode (.errorResponse t) [] =
          [69] ++ u32be (t.length + 14) ++ [83] ++ [70, 65, 84, 65, 76] ++ [0] ++ [77] ++
            t ++ [0] ++ [0])
    ∧ (∀ k v : List Nat, k.length + v.length + 6 < 2 ^ 32 →
        StartupResponse.encode (.parameterStatus k v) [] =
          [83] ++ u32be (k.length + v.length + 6) ++ k ++ [0] ++ v ++ [0])
    ∧ StartupResponse.encode .readyForQuery [] = [90] ++ u32be 5 ++ [73] := by
  refine ⟨by decide, ?_, by decide, by decide, by decide, by decide, ?_, ?_, by decide⟩
  · intro salt hs
    simp [StartupResponse.encode, put_u8, put_u32, put_slice]
  · intro t ht
    simp only [StartupResponse.encode, put_u8, put_u32, put_slice]
    rw [Nat.mod_eq_of_lt (show 4 + (1 + 5 + 1) + (1 + t.length + 1) + 1 < 2 ^ 32 by omega)]
    rw [show 4 + (1 + 5 + 1) + (1 + t.length + 1) + 1 = t.length + 14 by omega]
    simp [List.append_assoc]
  · intro k v h
    simp only [StartupResponse.encode, put_u8, put_u32, put_slice]
    rw [Nat.mod_eq_of_lt (show 4 + (k.length + 1) + (v.length + 1) < 2 ^ 32 by omega)]
    rw [show 4 + (k.length + 1) + (v.length + 1) = k.length + v.length + 6 by omega]
    simp [List.append_assoc]

/-- Witness for C9 at a concrete salt, error text `no` and parameter
`user = u`. -/
theorem c9_encode_wire_forms_witness :
    StartupResponse.encode (.authenticationMD5Password [9, 8, 7, 6]) [] =
      [82] ++ u32be 12 ++ [9, 8, 7, 6] ++ u32be 0
    ∧ StartupResponse.encode (.errorResponse [110, 111]) [] =
      [69] ++ u32be 16 ++ [83] ++ [70, 65, 84, 65, 76] ++ [0] ++ [77] ++ [110, 111] ++
        [0] ++ [0]
    ∧ StartupResponse.encode (.parameterStatus [117, 115, 101, 114] [117]) [] =
      [83] ++ u32be 11 ++ [117, 115, 101, 114] ++ [0] ++ [117] ++ [0] :=
  ⟨c9_encode_wire_forms.2.1 [9, 8, 7, 6] (by decide),
   by
     have := c9_encode_wire_forms.2.2.2.2.2.2.1 [110, 111] (by norm_num)
     simpa using this,
   by
     have := c9_encode_wire_forms.2.2.2.2.2.2.2.1 [117, 115, 101, 114] [117] (by norm_num)
     simpa using this⟩

/-- Lexicographic byte comparison, as `Ord for String` compares the
underlying byte arrays (used by `parameters.sort_by(|a, b| a.0.cmp(&b.0))`). -/
def lexLe : List Nat → List Nat → Bool
  | [], _ => true
  | _ :: _, [] => false
  | a :: as, b :: bs => if a < b then true else if b < a then false else lexLe as bs

/-- Unfolding of `lexLe` on two nonempty lists. -/
theorem lexLe_cons (a b : Nat) (as bs : List Nat) :
    lexLe (a :: as) (b :: bs) = true ↔ a < b ∨ (a = b ∧ lexLe as bs = true) := by
  simp only [lexLe]
  split_ifs with h1 h2
  · simp [h1]
  · simp only [Bool.false_eq_true, false_iff]
    rintro (h | ⟨rfl, _⟩) <;> omega
  · have h : a = b := by omega
    simp [h]

/-- `lexLe` is total. -/
theorem lexLe_total : ∀ x y : List Nat, lexLe x y = true ∨ lexLe y x = true := by
  intro x
  induction x with
  | nil => intro y; exact Or.inl rfl
  | cons a as ih =>
    intro y
    cases y with
    | nil => exact Or.inr rfl
    | cons b bs =>
      rcases Nat.lt_trichotomy a b with h | h | h
      · exact Or.inl ((lexLe_cons a b as bs).mpr (Or.inl h))
      · subst h
        rcases ih bs with hl | hl
        · exact Or.inl ((lexLe_cons a a as bs).mpr (Or.inr ⟨rfl, hl⟩))
        · exact Or.inr ((lexLe_cons a a bs as).mpr (Or.inr ⟨rfl, hl⟩))
      · exact Or.inr ((lexLe_cons b a bs as).mpr (Or.inl h))

/-- `lexLe` is transitive. -/
theorem lexLe_trans : ∀ x y z : List Nat,
    lexLe x y = true → lexLe y z = true → lexLe x z = true := by
  intro x
  induction x with
  | nil => intro y z _ _; rfl
  | cons a as ih =>
    intro y z hxy hyz
    cases y with
    | nil => simp [lexLe] at hxy
    | cons b bs =>
      cases z with
      | nil => simp [lexLe] at hyz
      | cons c cs =>
        rw [lexLe_cons] at hxy hyz ⊢
        rcases hxy with h1 | ⟨rfl, h1⟩
        · rcases hyz with h2 | ⟨rfl, h2⟩
          · exact Or.inl (by omega)
          · exact Or.inl h1
        · rcases hyz with h2 | ⟨rfl, h2⟩
          · exact Or.inl h2
          · exact Or.inr ⟨rfl, ih _ _ h1 h2⟩

/-- The comparison used by `complete_client_init`'s `sort_by`: ascending by
key. -/
def paramKeyLe (a b : List Nat × List Nat) : Prop := lexLe a.1 b.1 = true

instance : DecidableRel paramKeyLe := fun a b => by
  unfold paramKeyLe; infer_instance

instance : IsTotal (List Nat × List Nat) paramKeyLe :=
  ⟨fun a b => lexLe_total a.1 b.1⟩

instance : IsTrans (List Nat × List Nat) paramKeyLe :=
  ⟨fun a b c => lexLe_trans a.1 b.1 c.1⟩

/-- The observable effects of `ProxyManager::complete_client_init`: frames
fed to the client stream, then the final flush. -/
inductive ClientInitEvent where
  | send (r : StartupResponse)
  | flush
deriving DecidableEq

/-- `ProxyManager::complete_client_init` from
`tokio-postgres/src/proxy/mod.rs`: feed `AuthenticationOk`, one
`ParameterStatus` per backend parameter sorted by key (the source collects
the map into a vector and runs a stable `sort_by` on the keys; insertion
sort is stable, so it computes the same list), feed `ReadyForQuery`, then
flush. -/
def complete_client_init (parameters : List (List Nat × List Nat)) : List ClientInitEvent :=
  ClientInitEvent.send .authenticationOk ::
    ((List.insertionSort paramKeyLe parameters).map
        (fun p => ClientInitEvent.send (.parameterStatus p.1 p.2))
      ++ [ClientInitEvent.send .readyForQuery, ClientInitEvent.flush])

/-- C10: the handshake replay sends `AuthenticationOk`, then exactly one
`ParameterStatus` per backend parameter (the sorted list is a permutation of
the input), in strictly ascending key order with no duplicate keys, then
`ReadyForQuery`, then flushes — for every backend parameter map (modelled as
an association list with distinct keys, as a `HashMap` yields). -/
theorem c10_handshake_replay_order (params : List (List Nat × List Nat))
    (h : (params.map Prod.fst).Nodup) :
    complete_client_init params =
      ClientInitEvent.send .authenticationOk ::
        ((List.insertionSort paramKeyLe params).map
            (fun p => ClientInitEvent.send (.parameterStatus p.1 p.2))
          ++ [ClientInitEvent.send .readyForQuery, ClientInitEvent.flush])
    ∧ (List.insertionSort paramKeyLe params).Perm params
    ∧ List.Pairwise (fun a b => lexLe a.1 b.1 = true ∧ a.1 ≠ b.1)
        (List.insertionSort paramKeyLe params) := by
  refine ⟨rfl, List.perm_insertionSort _ _, ?_⟩
  have hs : List.Sorted paramKeyLe (List.insertionSort paramKeyLe params) :=
    List.sorted_insertionSort paramKeyLe params
  have hperm := List.perm_insertionSort paramKeyLe params
  have hne : List.Pairwise (fun a b : List Nat × List Nat => a.1 ≠ b.1) params :=
    List.pairwise_map.mp h
  have hne2 : List.Pairwise (fun a b : List Nat × List Nat => a.1 ≠ b.1)
      (List.insertionSort paramKeyLe params) :=
    (hperm.pairwise_iff (fun hxy => hxy.symm)).mpr hne
  exact List.Pairwise.and hs hne2

/-- Witness for C10: two parameters given in descending key order come back
ascending, with all frames in the required order. -/
theorem c10_handshake_replay_order_witness :
    (([([98], [49]), ([97], [50])] : List (List Nat × List Nat)).map Prod.fst).Nodup
    ∧ complete_client_init [([98], [49]), ([97], [50])] =
      [ClientInitEvent.send .authenticationOk,
       ClientInitEvent.send (.parameterStatus [97] [50]),
       ClientInitEvent.send (.parameterStatus [98] [49]),
       ClientInitEvent.send .readyForQuery, ClientInitEvent.flush]
    ∧ List.Pairwise (fun a b => lexLe a.1 b.1 = true ∧ a.1 ≠ b.1)
        (List.insertionSort paramKeyLe [([98], [49]), ([97], [50])]) :=
  ⟨by decide,
   by
     rw [(c10_handshake_replay_order [([98], [49]), ([97], [50])] (by decide)).1]
     decide,
   (c10_handshake_replay_order [([98], [49]), ([97], [50])] (by decide)).2.2⟩

/-- `CancelKey` from `tokio-postgres/src/proxy/mod.rs`. -/
structure CancelKey where
  process_id : Int
  secret_key : Int
deriving DecidableEq

/-- The cancel registry `HashMap<CancelKey, CancelHandle>` (handles
abstracted to an id), as an association list with unique keys. -/
def CancelRegistry := List (CancelKey × Nat)

/-- `HashMap::remove` on the registry. -/
def registryRemove (reg : CancelRegistry) (key : CancelKey) : CancelRegistry :=
  List.filter (fun p => p.1 ≠ key) reg

/-- `HashMap::insert` on the registry (latest write wins). -/
def registryInsert (reg : CancelRegistry) (key : CancelKey) (h : Nat) : CancelRegistry :=
  (key, h) :: registryRemove reg key

/-- `HashMap::contains_key` on the registry. -/
def registryContains (reg : CancelRegistry) (key : CancelKey) : Bool :=
  List.any reg (fun p => p.1 = key)

/-- How the session task of `ProxyManager::handle_conn` ends after the
cancel handle was registered: `proxy_data` returns `Ok`, returns `Err`, or
the task is torn down abruptly (panic or task cancellation), in which case
the remaining statements do not run and only `Drop` impls execute —
`CancelHandleRegistration` has none. -/
inductive SessionExit where
  | normal
  | relayError
  | aborted
deriving DecidableEq

/-- The registry state when `ProxyManager::handle_conn` ends, starting from
the `reg.register(...)` call: the explicit `cancel_registration.deregister()`
runs after `proxy_data` on both the `Ok` and the `Err` path; on abrupt
teardown it never runs (no `Drop` impl on `CancelHandleRegistration`). -/
def handle_conn_session (reg : CancelRegistry) (key : CancelKey) (h : Nat) :
    SessionExit → CancelRegistry
  | .normal => registryRemove (registryInsert reg key h) key
  | .relayError => registryRemove (registryInsert reg key h) key
  | .aborted => registryInsert reg key h

/-- Removing a key from the registry leaves no entry under it. -/
theorem registryContains_remove (reg : CancelRegistry) (key : CancelKey) :
    registryContains (registryRemove reg key) key = false := by
  induction reg with
  | nil => rfl
  | cons p rest ih =>
    unfold registryRemove registryContains at ih ⊢
    by_cases h : p.1 = key
    · simp [h, ih]
    · simp only [List.filter_cons]
      simp [h, ih]

/-- C3 counterexample: the claim says the registry entry is removed on every
exit path including panic/cancellation of the session task; on the abrupt
path the code's explicit `deregister().await` never runs and
`CancelHandleRegistration` has no `Drop`, so the key (42, 99) survives. -/
theorem c3_aborted_session_leaks_registration :
    registryContains (handle_conn_session [] ⟨42, 99⟩ 0 .aborted) ⟨42, 99⟩ = true := by
  decide

/-- C3 amended: the cancel-registry entry is removed when the session ends
by normal completion or by a byte-relay error (`deregister` runs after
`proxy_data` regardless of its result), but not on panic/cancellation of
the session task. -/
theorem c3_deregister_on_return_paths (reg : CancelRegistry) (key : CancelKey) (h : Nat) :
    registryContains (handle_conn_session reg key h .normal) key = false
    ∧ registryContains (handle_conn_session reg key h .relayError) key = false
    ∧ registryContains (handle_conn_session reg key h .aborted) key = true := by
  refine ⟨?_, ?_, ?_⟩
  · exact registryContains_remove _ key
  · exact registryContains_remove _ key
  · unfold handle_conn_session registryInsert registryContains
    simp

/-- The observable steps of `ProxyManager::handle_cancel`, in program
order.  In the source, the `RwLock` read guard is a temporary in the
`if let Some(handle) = self.cancel_handles.read().await.get(&key)`
scrutinee, so it lives until the end of the `if let` block: `handle`
borrows from it, `handle.tls.clone()` and the awaited
`handle.token.cancel_query(tls)` both run under it, and it drops at the
block's end. -/
inductive CancelStep where
  | readLockAcquire
  | tlsClone
  | cancelRpc
  | readLockRelease
deriving DecidableEq

/-- Trace of `handle_cancel` depending on whether the key was found. -/
def handle_cancel_trace (found : Bool) : List CancelStep :=
  if found then [.readLockAcquire, .tlsClone, .cancelRpc, .readLockRelease]
  else [.readLockAcquire, .readLockRelease]

/-- Whether some `cancelRpc` step happens while the read lock is held. -/
def rpcWhileLockHeld (held : Bool) : List CancelStep → Bool
  | [] => false
  | .readLockAcquire :: rest => rpcWhileLockHeld true rest
  | .readLockRelease :: rest => rpcWhileLockHeld false rest
  | .cancelRpc :: rest => held || rpcWhileLockHeld held rest
  | .tlsClone :: rest => rpcWhileLockHeld held rest

/-- C4 counterexample: the claim says the shared lock is released before the
cancel RPC; in the code's trace for a found key the RPC runs while the read
guard is held (it is released only afterwards). -/
theorem c4_lock_held_during_cancel_rpc :
    rpcWhileLockHeld false (handle_cancel_trace true) = true := by
  decide

/-- C4 amended: `handle_cancel` clones only the TLS config under the shared
lock and performs the cancel RPC while still holding the read guard,
releasing it after the RPC returns; when the key is absent no RPC happens
(and hence none under the lock). -/
theorem c4_lock_span (found : Bool) :
    rpcWhileLockHeld false (handle_cancel_trace found) = found
    ∧ handle_cancel_trace true =
        [.readLockAcquire, .tlsClone, .cancelRpc, .readLockRelease] := by
  cases found <;> exact ⟨by decide, rfl⟩

/-- A UTF-8 continuation byte (model of the check inside Rust std's
`String::from_utf8`). -/
def utf8Cont (b : Nat) : Bool := 128 ≤ b && b ≤ 191

/-- Validity of a byte sequence as UTF-8, per the table Rust std's
`String::from_utf8` enforces (no overlong forms, no surrogates, max
U+10FFFF); `StartupData::parse` drops pairs whose key fails this check. -/
def utf8Valid : List Nat → Bool
  | [] => true
  | b :: rest =>
    if b ≤ 127 then utf8Valid rest
    else if 194 ≤ b && b ≤ 223 then
      match rest with
      | c1 :: r => utf8Cont c1 && utf8Valid r
      | [] => false
    else if b = 224 then
      match rest with
      | c1 :: c2 :: r => (160 ≤ c1 && c1 ≤ 191) && utf8Cont c2 && utf8Valid r
      | _ => false
    else if 225 ≤ b && b ≤ 236 then
      match rest with
      | c1 :: c2 :: r => utf8Cont c1 && utf8Cont c2 && utf8Valid r
      | _ => false
    else if b = 237 then
      match rest with
      | c1 :: c2 :: r => (128 ≤ c1 && c1 ≤ 159) && utf8Cont c2 && utf8Valid r
      | _ => false
    else if 238 ≤ b && b ≤ 239 then
      match rest with
      | c1 :: c2 :: r => utf8Cont c1 && utf8Cont c2 && utf8Valid r
      | _ => false
    else if b = 240 then
      match rest with
      | c1 :: c2 :: c3 :: r => (144 ≤ c1 && c1 ≤ 191) && utf8Cont c2 && utf8Cont c3 && utf8Valid r
      | _ => false
    else if 241 ≤ b && b ≤ 243 then
      match rest with
      | c1 :: c2 :: c3 :: r => utf8Cont c1 && utf8Cont c2 && utf8Cont c3 && utf8Valid r
      | _ => false
    else if b = 244 then
      match rest with
      | c1 :: c2 :: c3 :: r => (128 ≤ c1 && c1 ≤ 143) && utf8Cont c2 && utf8Cont c3 && utf8Valid r
      | _ => false
    else false

/-- The `std::iter::from_fn` loop inside `StartupData::parse`: read a key
cstring (stop on missing terminator or empty key), read a value cstring
(stop on missing terminator), decode the key as UTF-8 — `from_fn` stops at
the first `None`, so a non-UTF-8 key ends the whole iteration.  `fuel`
bounds the recursion; any fuel larger than the number of produced pairs
gives the loop's value. -/
def parsePairsAux : Nat → Buffer → List (List Nat × List Nat)
  | 0, _ => []
  | fuel + 1, b =>
    match b.read_cstr with
    | none => []
    | some (key, b1) =>
      if key.isEmpty then []
      else
        match b1.read_cstr with
        | none => []
        | some (value, b2) =>
          if utf8Valid key then (key, value) :: parsePairsAux fuel b2
          else []

/-- `StartupData` from `postgres-protocol/src/message/startup.rs`; the
`HashMap<String, Bytes>` is modelled as the produced pair list with a
later-wins lookup. -/
structure StartupData where
  pairs : List (List Nat × List Nat)
deriving DecidableEq

/-- `StartupData::parse`: run the pair loop over the payload (the fuel
`length + 1` dominates the pair count, each pair consuming at least two
input bytes). -/
def StartupData.parse (bytes : List Nat) : StartupData :=
  ⟨parsePairsAux (bytes.length + 1) ⟨bytes, 0⟩⟩

/-- `HashMap` lookup as built by `HashMap::from_iter`: the later of two
pairs with equal keys wins. -/
def StartupData.get (d : StartupData) (k : List Nat) : Option (List Nat) :=
  (d.pairs.reverse.find? (fun p => p.1 == k)).map Prod.snd

/-- Byte encoding of a pair list as the startup payload writes it:
`key 0 value 0` repeated. -/
def encodePairs : List (List Nat × List Nat) → List Nat
  | [] => []
  | (k, v) :: ps => k ++ 0 :: (v ++ 0 :: encodePairs ps)

/-- A tail after the well-formed pairs on which the pair loop stops without
producing a pair: an empty-key terminator, a pair whose key is not valid
UTF-8, or a zero-free remainder (no terminator at all). -/
def stopTail (tail : List Nat) : Prop :=
  (∃ t, tail = 0 :: t)
  ∨ (∃ bad t, tail = bad ++ 0 :: t ∧ bad ≠ [] ∧ (∀ x ∈ bad, x ≠ 0) ∧ utf8Valid bad = false)
  ∨ (∀ x ∈ tail, x ≠ 0)

/-- `findIdx?` locates the zero terminating a zero-free prefix. -/
theorem findIdx?_append_zero (k t : List Nat) (s : Nat) (hk : ∀ x ∈ k, x ≠ 0) :
    (k ++ 0 :: t).findIdx? (fun x => x = 0) s = some (s + k.length) := by
  induction k generalizing s with
  | nil => simp [List.findIdx?_cons]
  | cons a as ih =>
    have ha : a ≠ 0 := hk a (by simp)
    rw [List.cons_append, List.findIdx?_cons, if_neg (by simp [ha])]
    rw [ih (s + 1) (fun x hx => hk x (by simp [hx]))]
    congr 1
    simp
    omega

/-- `read_cstr` on a buffer whose remaining slice is a zero-free prefix
followed by a terminator. -/
theorem read_cstr_split (bytes : List Nat) (idx : Nat) (k t : List Nat)
    (hs : (Buffer.mk bytes idx).slice = k ++ 0 :: t) (hk : ∀ x ∈ k, x ≠ 0) :
    (Buffer.mk bytes idx).read_cstr = some (k, ⟨bytes, idx + k.length + 1⟩) := by
  unfold Buffer.read_cstr
  rw [hs, findIdx?_append_zero k t 0 hk]
  dsimp only
  rw [Nat.zero_add, List.take_left]

/-- Advancing the cursor past a parsed cstring leaves the tail as the
slice. -/
theorem slice_after_cstr (bytes : List Nat) (idx : Nat) (k t : List Nat)
    (hs : (Buffer.mk bytes idx).slice = k ++ 0 :: t) :
    (Buffer.mk bytes (idx + k.length + 1)).slice = t := by
  unfold Buffer.slice at hs ⊢
  dsimp only at hs ⊢
  rw [show idx + k.length + 1 = idx + (k.length + 1) by omega, ← List.drop_drop, hs]
  rw [show k ++ 0 :: t = (k ++ [0]) ++ t by simp]
  rw [show k.length + 1 = (k ++ [0]).length by simp]
  exact List.drop_left _ _

/-- The pair loop yields nothing on a stop tail (empty key, non-UTF-8 key,
or missing terminator). -/
theorem parsePairsAux_stopTail (fuel : Nat) (bytes : List Nat) (idx : Nat)
    (hstop : stopTail ((Buffer.mk bytes idx).slice)) :
    parsePairsAux fuel ⟨bytes, idx⟩ = [] := by
  cases fuel with
  | zero => rfl
  | succ f =>
    rcases hstop with ⟨t, ht⟩ | ⟨bad, t, ht, hne, hz, hu⟩ | hz
    · unfold parsePairsAux
      rw [read_cstr_split bytes idx [] t (by simpa using ht) (by simp)]
      rfl
    · unfold parsePairsAux
      rw [read_cstr_split bytes idx bad t ht hz]
      dsimp only
      rw [if_neg (by simpa using hne)]
      cases hc : (Buffer.mk bytes (idx + bad.length + 1)).read_cstr with
      | none => rfl
      | some p =>
        obtain ⟨value, b2⟩ := p
        dsimp only
        rw [if_neg (by simp [hu])]
    · unfold parsePairsAux
      have hn : (Buffer.mk bytes idx).read_cstr = none := by
        unfold Buffer.read_cstr
        rw [List.findIdx?_eq_none_iff.mpr (fun x hx => by simpa using hz x hx)]
      rw [hn]

/-- The pair loop reproduces a well-formed prefix of pairs and stops at the
stop tail, provided the fuel exceeds the pair count. -/
theorem parsePairsAux_encodePairs (ps : List (List Nat × List Nat)) :
    ∀ (fuel : Nat) (bytes : List Nat) (idx : Nat) (tail : List Nat),
      ps.length < fuel →
      (∀ p ∈ ps, p.1 ≠ [] ∧ (∀ x ∈ p.1, x ≠ 0) ∧ (∀ x ∈ p.2, x ≠ 0) ∧ utf8Valid p.1 = true) →
      (Buffer.mk bytes idx).slice = encodePairs ps ++ tail →
      stopTail tail →
      parsePairsAux fuel ⟨bytes, idx⟩ = ps := by
  induction ps with
  | nil =>
    intro fuel bytes idx tail hf hp hs hstop
    apply parsePairsAux_stopTail
    rw [hs]
    simpa [encodePairs] using hstop
  | cons p ps ih =>
    obtain ⟨k, v⟩ := p
    intro fuel bytes idx tail hf hp hs hstop
    obtain ⟨hk1, hk0, hv0, hku⟩ := hp (k, v) (by simp)
    cases fuel with
    | zero => simp at hf
    | succ f =>
      unfold parsePairsAux
      have hs1 : (Buffer.mk bytes idx).slice =
          k ++ 0 :: (v ++ 0 :: (encodePairs ps ++ tail)) := by
        rw [hs]; simp [encodePairs]
      rw [read_cstr_split bytes idx k _ hs1 hk0]
      dsimp only
      rw [if_neg (by simpa using hk1)]
      have hs2 : (Buffer.mk bytes (idx + k.length + 1)).slice =
          v ++ 0 :: (encodePairs ps ++ tail) :=
        slice_after_cstr bytes idx k _ hs1
      rw [read_cstr_split bytes (idx + k.length + 1) v _ hs2 hv0]
      dsimp only
      rw [if_pos hku]
      congr 1
      exact ih f bytes _ tail (by simp at hf; omega)
        (fun q hq => hp q (by simp [hq]))
        (slice_after_cstr bytes (idx + k.length + 1) v _ hs2) hstop

/-- A pair list is no longer than its byte encoding. -/
theorem encodePairs_length (ps : List (List Nat × List Nat)) :
    ps.length ≤ (encodePairs ps).length := by
  induction ps with
  | nil => simp [encodePairs]
  | cons p ps ih =>
    obtain ⟨k, v⟩ := p
    simp [encodePairs]
    omega

/-- C6 counterexample: the claim says a non-UTF-8 key drops only that pair,
keeping well-formed pairs before and after it.  Parsing
`a 0 1 0  FF 0 2 0  c 0 3 0  0` (pairs `a = 1`, `<FF> = 2`, `c = 3`) must
then retain `c = 3`; the code's `from_fn` iterator stops at the first
`None`, so the pair after the bad key is gone (the pair before it is
kept). -/
theorem c6_pair_after_bad_key_dropped :
    (StartupData.parse [97, 0, 49, 0, 255, 0, 50, 0, 99, 0, 51, 0, 0]).get [99] = none
    ∧ (StartupData.parse [97, 0, 49, 0, 255, 0, 50, 0, 99, 0, 51, 0, 0]).get [97] =
      some [49] := by
  constructor <;> rfl

/-- C6 amended: a key that is not valid UTF-8 ends parsing: every
well-formed pair before it is retained verbatim (values as raw bytes), the
offending pair and everything after it are dropped; parsing also stops at
an empty key; and for duplicate keys the later pair wins in the map. -/
theorem c6_startup_data_parse (ps : List (List Nat × List Nat)) (tail : List Nat)
    (hps : ∀ p ∈ ps, p.1 ≠ [] ∧ (∀ x ∈ p.1, x ≠ 0) ∧ (∀ x ∈ p.2, x ≠ 0) ∧
      utf8Valid p.1 = true)
    (htail : stopTail tail) :
    (StartupData.parse (encodePairs ps ++ tail)).pairs = ps
    ∧ (∀ (pairs : List (List Nat × List Nat)) (k v : List Nat),
        StartupData.get ⟨pairs ++ [(k, v)]⟩ k = some v) := by
  constructor
  · unfold StartupData.parse
    apply parsePairsAux_encodePairs ps _ _ 0 tail ?_ hps (by simp [Buffer.slice]) htail
    have := encodePairs_length ps
    simp [List.length_append]
    omega
  · intro pairs k v
    unfold StartupData.get
    simp

/-- Witness for C6 amended: one good pair `a = 1` followed by the non-UTF-8
key `FF`; and a duplicate key whose later value wins. -/
theorem c6_startup_data_parse_witness :
    (StartupData.parse [97, 0, 49, 0, 255, 0]).pairs = [([97], [49])]
    ∧ StartupData.get ⟨[([97], [50])] ++ [([97], [51])]⟩ [97] = some [51] :=
  ⟨(c6_startup_data_parse [([97], [49])] [255, 0]
      (by
        intro p hp
        simp at hp
        subst hp
        refine ⟨by simp, by simp, by simp, by decide⟩)
      (Or.inr (Or.inl ⟨[255], [], rfl, by simp, by simp, by decide⟩))).1,
   (c6_startup_data_parse [] [0]
      (by simp)
      (Or.inl ⟨[], rfl⟩)).2 [([97], [50])] [97] [51]⟩

/-- Lowercase hex digit byte for a nibble. -/
def hexDigit (n : Nat) : Nat := if n < 10 then 48 + n else 87 + n

/-- Lowercase hex encoding of a byte list (two digits per byte), as the
`hex` in the spec's hash formula. -/
def hexBytes (l : List Nat) : List Nat :=
  (l.map (fun b => [hexDigit (b / 16 % 16), hexDigit (b % 16)])).flatten

/-- Modelled from the spec: `md5_hash` from
`postgres-protocol/src/authentication.rs` is not under src; §4.4 defines it
as `"md5" ++ hex(md5(hex(md5(password ++ username)) ++ salt))` with
lowercase hex.  The MD5 compression itself is an external primitive, taken
as a parameter. -/
def md5_hash (md5 : List Nat → List Nat) (username password : List Nat)
    (salt : List Nat) : List Nat :=
  [109, 100, 53] ++ hexBytes (md5 (hexBytes (md5 (password ++ username)) ++ salt))

/-- The bytes of the parameter name `user`. -/
def userKey : List Nat := [117, 115, 101, 114]

/-- `md5_password_equal` from `tokio-postgres/src/proxy/auth.rs`: look up
`user` in the startup parameters (absent means failure), compute the
expected hash, compare with `constant_time_eq` (whose value is byte
equality). -/
def md5_password_equal (md5 : List Nat → List Nat) (expected_password : List Nat)
    (received_hash : List Nat) (startup : StartupData) (salt : List Nat) : Bool :=
  match startup.get userKey with
  | none => false
  | some username => received_hash == md5_hash md5 username expected_password salt

/-- Outcome of `AuthMethod::authenticate` in the `Password` arm. -/
inductive AuthOutcome where
  | ok
  | authFailure
  | unexpectedMessage
deriving DecidableEq

/-- The response handling of `AuthMethod::authenticate`
(`tokio-postgres/src/proxy/auth.rs`) after the MD5 challenge was sent: a
decoded `Password` is checked against the expected hash; anything else
(including end-of-stream) is `Error::unexpected_message()`. -/
def authenticate_response (md5 : List Nat → List Nat) (expected_password : List Nat)
    (startup : StartupData) (salt : List Nat) : Option StartupRequest → AuthOutcome
  | some (.password received_hash) =>
    if md5_password_equal md5 expected_password received_hash startup salt then .ok
    else .authFailure
  | _ => .unexpectedMessage

/-- C8: under `AuthMethod::Password`, authentication fails for every
received hash when `user` is absent from the startup parameters; when
`user` is present it succeeds exactly when the received hash equals the
expected MD5 salted hash built from the expected password, the user name
and the salt (the constant-time comparison computes byte equality); and any
decoded request other than `Password` yields `UnexpectedMessage`. -/
theorem c8_password_authentication (md5 : List Nat → List Nat)
    (expected_password salt received : List Nat) (startup : StartupData) :
    (startup.get userKey = none →
      authenticate_response md5 expected_password startup salt
        (some (.password received)) = .authFailure)
    ∧ (∀ u, startup.get userKey = some u →
        (authenticate_response md5 expected_password startup salt
            (some (.password received)) = .ok ↔
          received = md5_hash md5 u expected_password salt))
    ∧ (∀ msg : Option StartupRequest, (∀ r, msg ≠ some (.password r)) →
        authenticate_response md5 expected_password startup salt msg =
          .unexpectedMessage) := by
  refine ⟨?_, ?_, ?_⟩
  · intro h
    unfold authenticate_response md5_password_equal
    rw [h]
    rfl
  · intro u hu
    unfold authenticate_response md5_password_equal
    rw [hu]
    dsimp only
    constructor
    · intro h
      by_cases he : received == md5_hash md5 u expected_password salt
      · exact eq_of_beq he
      · rw [if_neg (by simpa using he)] at h
        exact absurd h (by simp)
    · intro h
      rw [if_pos (by simp [h])]
  · intro msg hmsg
    match msg with
    | none => rfl
    | some (.startup d) => rfl
    | some (.cancel p s) => rfl
    | some .sslRequest => rfl
    | some .gssEncRequest => rfl
    | some (.password r) => exact absurd rfl (hmsg r)

/-- Witness for C8 with a toy compression function: a missing `user` fails,
the matching hash succeeds, a non-Password message is unexpected. -/
theorem c8_password_authentication_witness :
    (StartupData.mk []).get userKey = none
    ∧ authenticate_response (fun _ => [0]) [112] (StartupData.mk []) [1, 2, 3, 4]
        (some (.password [109])) = .authFailure
    ∧ (StartupData.mk [(userKey, [117])]).get userKey = some [117]
    ∧ authenticate_response (fun _ => [0]) [112] (StartupData.mk [(userKey, [117])])
        [1, 2, 3, 4]
        (some (.password (md5_hash (fun _ => [0]) [117] [112] [1, 2, 3, 4]))) = .ok
    ∧ authenticate_response (fun _ => [0]) [112] (StartupData.mk []) [1, 2, 3, 4]
        (some .sslRequest) = .unexpectedMessage :=
  ⟨by decide,
   (c8_password_authentication (fun _ => [0]) [112] [1, 2, 3, 4] [109]
      (StartupData.mk [])).1 (by decide),
   by decide,
   ((c8_password_authentication (fun _ => [0]) [112] [1, 2, 3, 4]
        (md5_hash (fun _ => [0]) [117] [112] [1, 2, 3, 4])
        (StartupData.mk [(userKey, [117])])).2.1 [117] (by decide)).mpr rfl,
   (c8_password_authentication (fun _ => [0]) [112] [1, 2, 3, 4] []
      (StartupData.mk [])).2.2 (some .sslRequest) (fun r h => by simp at h)⟩
